import Mathlib

/- Verification development for scripts/fetch_touchpoints.py.

   Modelling conventions:
   - Python strings are Lean String values; Python string comparison
     (lexicographic on code points) is the lexicographic order on the
     underlying character lists, which coincides with String.lt.
   - A dict entry that may be absent or hold None is an Option String;
     Python truthiness of a string value s is s not being the empty string.
   - Python list.sort(key=...) is a stable sort; a stable sort's output is
     uniquely determined by being sorted on the key, a permutation of the
     input, and per-key order preserving, and insertion sort with
     List.orderedInsert realises exactly that output. -/

namespace FetchTouchpoints

/-- One touchpoint dict as built throughout main: keys date, type, detail,
source, plus an optional contact key. A date of none models a missing key or
a None value; both behave identically under tp.get("date"). -/
structure Touchpoint where
  date : Option String
  type : String
  detail : String
  source : String
  contact : Option String
  deriving DecidableEq

/-- Python slicing s[:n] on a string. -/
def strTake (s : String) (n : Nat) : String :=
  String.mk (s.data.take n)

/-- The sort key of line 612: lambda t: t.get("date") or "9999".
None and the empty string are falsy, so both fall back to "9999". -/
def sortKey (t : Touchpoint) : String :=
  match t.date with
  | none => "9999"
  | some d => if d = "" then "9999" else d

/-- Key comparison of the sort at line 612: Python compares the key strings
lexicographically by code point. -/
def tpLE (a b : Touchpoint) : Prop :=
  (sortKey a).data ≤ (sortKey b).data

instance : DecidableRel tpLE :=
  fun a b => inferInstanceAs (Decidable ((sortKey a).data ≤ (sortKey b).data))

/-- Line 612: company_touchpoints.sort(key=lambda t: t.get("date") or "9999"),
a stable sort by sortKey. -/
def pySort (l : List Touchpoint) : List Touchpoint :=
  List.insertionSort tpLE l

/-- The dedup key of line 618:
(tp.get("date", "")[:16], tp.get("type", ""), tp.get("detail", "")[:50]). -/
def dedupKey (t : Touchpoint) (d : String) : String × String × String :=
  (strTake d 16, t.type, strTake t.detail 50)

/-- Lines 615-621: keep a touchpoint iff its dedup key was not seen before.
When the date value is None, tp.get("date", "")[:16] raises TypeError (the
get default applies only to a missing key, and the sole dicts built without
a date key always carry one), so the pass is modelled as fallible. seen
models the seen_keys set, built up as keys are added. -/
def dedupFrom (seen : List (String × String × String)) :
    List Touchpoint → Option (List Touchpoint)
  | [] => some []
  | t :: ts =>
    match t.date with
    | none => none
    | some d =>
      if dedupKey t d ∈ seen then dedupFrom seen ts
      else (dedupFrom (dedupKey t d :: seen) ts).map (t :: ·)

/-- The whole dedup pass of lines 615-621, starting from an empty seen set. -/
def dedup (l : List Touchpoint) : Option (List Touchpoint) :=
  dedupFrom [] l

/-- A touchpoint with a truthy date value, i.e. one the sort must place
before the unknown-date block. -/
def hasDate (t : Touchpoint) : Bool :=
  match t.date with
  | none => false
  | some d => d != ""

/-- The dedup key of a touchpoint when its date value is present; none when
the date value is None (line 618 then raises). -/
def keyOf (t : Touchpoint) : Option (String × String × String) :=
  t.date.map (fun d => dedupKey t d)

instance : IsTotal Touchpoint tpLE :=
  ⟨fun a b => le_total (sortKey a).data (sortKey b).data⟩

instance : IsTrans Touchpoint tpLE :=
  ⟨fun _ _ _ hab hbc => le_trans hab hbc⟩

/-- Python whitespace, for str.strip on the ASCII data this script handles. -/
def isPySpace (c : Char) : Bool :=
  c = ' ' || c = '\t' || c = '\n' || c = '\r' || c = '\x0b' || c = '\x0c'

/-- Python str.strip(): drop leading and trailing whitespace characters. -/
def pyStripL (l : List Char) : List Char :=
  ((l.dropWhile isPySpace).reverse.dropWhile isPySpace).reverse

/-- Python str.strip() on a string. -/
def pyStrip (s : String) : String :=
  String.mk (pyStripL s.data)

/-- Python str.lower() on the ASCII data this script handles. -/
def pyLower (s : String) : String :=
  String.mk (s.data.map Char.toLower)

/-- Line 258: text.replace("\n", " ").replace("\r", " ").strip(). -/
def pyClean (s : String) : String :=
  String.mk (pyStripL (s.data.map (fun c =>
    if c = '\n' then ' ' else if c = '\r' then ' ' else c)))

/-- Lines 255-261: truncate(text, max_len=120). An empty text returns "";
otherwise the cleaned text is cut at max_len characters and "..." is
appended whenever it was longer than max_len. -/
def truncate (text : String) (max_len : Nat := 120) : String :=
  if text = "" then ""
  else if (pyClean text).length > max_len then strTake (pyClean text) max_len ++ "..."
  else pyClean text

/-- Lines 313-326: the First Touch detail string built from the contact's
analytics properties; each truthy property appends its segment verbatim,
with no length cap. -/
def firstTouchDetail (source sd1 sd2 first_url first_ref : String) : String :=
  let detail := "Source: " ++ source
  let detail := if sd1 ≠ "" then detail ++ " | " ++ sd1 else detail
  let detail := if sd2 ≠ "" then detail ++ " (" ++ sd2 ++ ")" else detail
  let detail := if first_url ≠ "" then detail ++ " | URL: " ++ first_url else detail
  let detail := if first_ref ≠ "" then detail ++ " | Referrer: " ++ first_ref else detail
  detail

/-- Lines 327-333: the First Touch touchpoint appended for a contact whose
hs_analytics_first_timestamp is present. -/
def mkFirstTouch (first_touch email source sd1 sd2 first_url first_ref : String) : Touchpoint :=
  { date := some first_touch
    type := "First Touch"
    detail := firstTouchDetail source sd1 sd2 first_url first_ref
    source := "HubSpot Analytics"
    contact := some email }

/-- One record of the input journeys file, with the fields main reads at
lines 623-631; optional fields model absent or null JSON entries. -/
structure Journey where
  company : String
  tenant_id : Option String
  lifecycle_stage : Option String
  deal_stage : Option String
  deal_amount : Option String
  first_touch : Option String
  cognito_signup : Option String
  source : Option String
  deriving DecidableEq

/-- One record of all_touchpoint_data (lines 623-635); contact_details is
omitted as no claim mentions it. -/
structure CompanyData where
  company : String
  tenant_id : Option String
  lifecycle_stage : String
  deal_stage : Option String
  deal_amount : Option String
  first_touch : Option String
  cognito_signup : Option String
  source : String
  touchpoints : List Touchpoint
  total_touchpoints : Nat
  deriving DecidableEq

/-- Lines 623-635: the record appended to all_touchpoint_data, built from the
journey's fields and the deduplicated touchpoint list; the get defaults
"Unknown" apply to lifecycle_stage and source. -/
def mkCompanyData (j : Journey) (deduped : List Touchpoint) : CompanyData :=
  { company := j.company
    tenant_id := j.tenant_id
    lifecycle_stage := j.lifecycle_stage.getD "Unknown"
    deal_stage := j.deal_stage
    deal_amount := j.deal_amount
    first_touch := j.first_touch
    cognito_signup := j.cognito_signup
    source := j.source.getD "Unknown"
    touchpoints := deduped
    total_touchpoints := deduped.length }

/-- Line 648: closed_won cohort, deal_stage == "Closed Won". -/
def closed_won (cs : List CompanyData) : List CompanyData :=
  cs.filter (fun c => decide (c.deal_stage = some "Closed Won"))

/-- Line 649: churned cohort, deal_stage in ("Churn", "Closed Lost"). -/
def churned (cs : List CompanyData) : List CompanyData :=
  cs.filter (fun c =>
    decide (c.deal_stage = some "Churn" ∨ c.deal_stage = some "Closed Lost"))

/-- Line 650: stalled cohort, deal_stage in the enumerated mid-funnel set. -/
def stalled (cs : List CompanyData) : List CompanyData :=
  cs.filter (fun c =>
    decide (c.deal_stage = some "Demo Scheduled" ∨ c.deal_stage = some "Demo Follow-Up" ∨
      c.deal_stage = some "Payment Link Sent" ∨ c.deal_stage = some "On Hold" ∨
      c.deal_stage = some "Free Trial" ∨ c.deal_stage = some "Freemium" ∨
      c.deal_stage = some "Interested in a pilot"))

/-- Line 651: no_deal cohort, not deal_stage (None or empty) or "No Deal". -/
def no_deal (cs : List CompanyData) : List CompanyData :=
  cs.filter (fun c =>
    decide (c.deal_stage = none ∨ c.deal_stage = some "" ∨ c.deal_stage = some "No Deal"))

/-- One recorded gap (lines 767-773). -/
structure TouchpointGap where
  company : String
  gap_days : Int
  from_type : String
  to_type : String
  outcome : Option String
  deriving DecidableEq

/-- The filter of line 763: a touchpoint takes part in the gap walk iff its
date is truthy and its type is not "Last Sales Activity"; the walk then uses
its (date, type). -/
def gapKept (t : Touchpoint) : Option (String × String) :=
  match t.date with
  | none => none
  | some d => if d ≠ "" ∧ t.type ≠ "Last Sales Activity" then some (d, t.type) else none

/-- Lines 760-775: the per-customer gap walk. prev carries (prev_date,
prev_type). days_between (lines 246-252) parses two date strings and returns
a signed day count, or None when either fails to parse; the walk depends
only on that result, so days_between is the parameter db. -/
def gapWalk (db : String → String → Option Int) (company : String) (outcome : Option String) :
    Option (String × String) → List Touchpoint → List TouchpointGap
  | _, [] => []
  | prev, tp :: tps =>
    match gapKept tp with
    | none => gapWalk db company outcome prev tps
    | some (d, ty) =>
      match prev with
      | none => gapWalk db company outcome (some (d, ty)) tps
      | some (pd, pt) =>
        match db pd d with
        | none => gapWalk db company outcome (some (d, ty)) tps
        | some g =>
          if g > 0 then
            ⟨company, g, pt, ty, outcome⟩ :: gapWalk db company outcome (some (d, ty)) tps
          else gapWalk db company outcome (some (d, ty)) tps

/-- The (date, type) pairs of the touchpoints that take part in the walk. -/
def keptPairs (tps : List Touchpoint) : List (String × String) :=
  tps.filterMap gapKept

/-- The gap emitted for one consecutive kept pair, when days_between is
defined and strictly positive. -/
def gapEmit (db : String → String → Option Int) (company : String) (outcome : Option String)
    (p : (String × String) × String × String) : Option TouchpointGap :=
  match db p.1.1 p.2.1 with
  | none => none
  | some g => if g > 0 then some ⟨company, g, p.1.2, p.2.2, outcome⟩ else none

/-- One HTTP attempt's outcome, as hubspot_get (lines 59-84) distinguishes
them: a parsed payload, an HTTPError with its status code, or any other
exception. -/
inductive HttpResp (α : Type) where
  | ok (payload : α)
  | httpError (code : Nat)
  | exc
  deriving DecidableEq

/-- Lines 67-84: hubspot_get's control flow over the successive responses the
server gives to its repeated attempts at this call. A 429 sleeps 10 seconds
and retries (the recursive call at line 74); any other HTTPError, and any
other exception, logs and returns None. hubspot_post (lines 93-110) has the
identical structure. The empty list (the server never stops answering 429)
is unreachable for the finite response sequences modelled here. -/
def hubspot_get {α : Type} : List (HttpResp α) → Option α
  | [] => none
  | .ok p :: _ => some p
  | .httpError code :: rest => if code = 429 then hubspot_get rest else none
  | .exc :: _ => none

/-- Claim-side model, following the spec's words: a call failing with a
rate-limit signal is retried exactly once after a fixed delay; if the retry
also fails, the call's data is treated as absent. -/
def hubspot_get_retry_once {α : Type} : List (HttpResp α) → Option α
  | [] => none
  | .ok p :: _ => some p
  | .exc :: _ => none
  | .httpError code :: rest =>
    if code = 429 then
      match rest with
      | .ok p :: _ => some p
      | _ => none
    else none

/-- One row of the local contact list a journey carries (line 287): an email
plus the optional account-creation date. -/
structure CognitoContact where
  email : String
  created : Option String
  deriving DecidableEq

/-- Line 288: contact["email"].strip().lower(). -/
def emailKey (c : CognitoContact) : String :=
  pyLower (pyStrip c.email)

/-- Lines 294-299: the synthetic touchpoint emitted when the CRM lookup finds
no record for the contact's email; it has no contact key. -/
def notFoundTouchpoint (c : CognitoContact) : Touchpoint :=
  { date := some (c.created.getD "")
    type := "Platform Signup"
    detail := emailKey c ++ " created Cognito account"
    source := "Cognito"
    contact := none }

/-- The per-contact loop of lines 287-495: look the contact up by normalised
email (get_contact_by_email is the network call behind the lookup
parameter); a missing record appends the synthetic signup touchpoint and
continues with the next contact; a found record hands over to the rest of
the loop body, abstracted as norm. -/
def processContacts {β : Type} (lookup : String → Option β)
    (norm : β → CognitoContact → List Touchpoint) :
    List CognitoContact → List Touchpoint
  | [] => []
  | c :: cs =>
    match lookup (emailKey c) with
    | none => notFoundTouchpoint c :: processContacts lookup norm cs
    | some hs => norm hs c ++ processContacts lookup norm cs

/-- First occurrence of sep in s: some (before, after) splits s around the
first occurrence; none when sep does not occur in s. -/
def findSplit (sep : List Char) : List Char → Option (List Char × List Char)
  | [] => if sep.isPrefixOf ([] : List Char) then some ([], []) else none
  | c :: cs =>
    if sep.isPrefixOf (c :: cs) then some ([], (c :: cs).drop sep.length)
    else (findSplit sep cs).map (fun p => (c :: p.1, p.2))

/-- Python s.split(sep)[0]: the text before the first occurrence of sep, or
s itself when sep does not occur. -/
def beforeFirst (sep s : List Char) : List Char :=
  match findSplit sep s with
  | none => s
  | some p => p.1

/-- The characters of the phrase "moved to:". -/
def movedTo : List Char := "moved to:".data

/-- Lines 746-748: when "moved to:" occurs in the detail, the stage is
detail.split("moved to:")[1].split("(")[0].strip(): the text between the
first and (if any) second occurrence of "moved to:", truncated at the first
"(" of that segment, with surrounding whitespace stripped. -/
def extractStage (detail : String) : Option String :=
  match findSplit movedTo detail.data with
  | none => none
  | some p => some (String.mk (pyStripL (beforeFirst "(".data (beforeFirst movedTo p.2))))

/-- Claim-side reading of the extraction: the text between "moved to:" and
the first "(" after it, stripped of surrounding whitespace. -/
def extractStageClaim (detail : String) : Option String :=
  match findSplit movedTo detail.data with
  | none => none
  | some p => some (String.mk (pyStripL (beforeFirst "(".data p.2)))

/-- Lines 741-748: the (date, stage) pairs a customer's Deal Stage Change
touchpoints contribute to stages_seen. -/
def stagesSeen (tps : List Touchpoint) : List (Option String × String) :=
  tps.filterMap (fun tp =>
    if tp.type = "Deal Stage Change" then (extractStage tp.detail).map (fun s => (tp.date, s))
    else none)

/-- Lines 751-754: the transition-table keys a customer contributes, one per
consecutive pair of extracted stages, rendered as in the source f-string. -/
def transitionKeys (tps : List Touchpoint) : List String :=
  ((stagesSeen tps).zip (stagesSeen tps).tail).map (fun p => p.1.2 ++ " → " ++ p.2.2)

/-- The global stage_sequence_counts defaultdict: the count accumulated for a
key over all customers' touchpoint lists. -/
def stage_sequence_counts (allTps : List (List Touchpoint)) (k : String) : Nat :=
  allTps.foldl (fun acc tps => acc + (transitionKeys tps).count k) 0

/-- Concrete data for the witnesses: an email engagement touchpoint. -/
def tpEmail0 : Touchpoint :=
  { date := some "2024-03-01T10:00:00Z", type := "Email",
    detail := "[INCOMING] Quick question", source := "HubSpot Engagement",
    contact := some "a@x.co" }

/-- The same engagement re-fetched thirty seconds later: same minute, same
type, same detail. -/
def tpEmail30 : Touchpoint :=
  { date := some "2024-03-01T10:00:30Z", type := "Email",
    detail := "[INCOMING] Quick question", source := "HubSpot Engagement",
    contact := some "a@x.co" }

/-- A dated call touchpoint earlier than the emails. -/
def tpCall : Touchpoint :=
  { date := some "2024-02-14T09:30:00Z", type := "Call",
    detail := "Call (65s)", source := "HubSpot Engagement", contact := some "a@x.co" }

/-- A signup touchpoint with an empty (falsy) date, as lines 294-299 build
when the contact carries no creation date. -/
def tpBlankDate : Touchpoint :=
  { date := some "", type := "Platform Signup",
    detail := "a@x.co created Cognito account", source := "Cognito", contact := none }

/-- A deal-stage touchpoint used by the stage-extraction witnesses. -/
def tpStage : Touchpoint :=
  { date := some "2024-02-20T12:00:00Z", type := "Deal Stage Change",
    detail := "\"Acme Deal\" moved to: Demo Scheduled (via CRM_UI)",
    source := "HubSpot Deal", contact := none }

/-- A later deal-stage touchpoint, for a consecutive transition. -/
def tpStage2 : Touchpoint :=
  { date := some "2024-02-25T12:00:00Z", type := "Deal Stage Change",
    detail := "\"Acme Deal\" moved to: Closed Won (via CRM_UI)",
    source := "HubSpot Deal", contact := none }

/-- A First Touch touchpoint whose landing URL pushes the detail far past
every cap the script uses (120 by default, 150 for note bodies). -/
def tpLongFirstTouch : Touchpoint :=
  mkFirstTouch "2024-01-05T08:00:00Z" "a@x.co" "PAID_SEARCH" "" ""
    "https://www.example.com/landing/pricing?utm_source=google&utm_medium=cpc&utm_campaign=brand-spring-2024&utm_content=variant-b&utm_term=inventory+software&gclid=Cj0KCQiA"
    ""

/-- A concrete company record in the Closed Won cohort, for the witnesses. -/
def cdWon : CompanyData :=
  { company := "Acme", tenant_id := none, lifecycle_stage := "Customer",
    deal_stage := some "Closed Won", deal_amount := some "1200",
    first_touch := some "2024-01-01T00:00:00Z",
    cognito_signup := some "2024-01-08T00:00:00Z", source := "PAID_SEARCH",
    touchpoints := [tpCall], total_touchpoints := 1 }

/-- A concrete journey record, for the witnesses. -/
def wJourney : Journey :=
  { company := "Acme", tenant_id := none, lifecycle_stage := some "Customer",
    deal_stage := some "Closed Won", deal_amount := some "1200",
    first_touch := some "2024-01-01T00:00:00Z",
    cognito_signup := some "2024-01-08T00:00:00Z", source := some "PAID_SEARCH" }

/-- A concrete contact whose email needs stripping and lowering, for the
witnesses. -/
def wContact : CognitoContact :=
  { email := " A@X.co ", created := some "2024-01-02T03:04:05Z" }

/-- A concrete days_between stand-in used by the gap-walk witness: every
pair of dates is 16 days apart. -/
def wdb : String → String → Option Int :=
  fun _ _ => some 16

theorem pySort_sorted (l : List Touchpoint) : List.Pairwise tpLE (pySort l) :=
  List.sorted_insertionSort tpLE l

theorem pySort_perm (l : List Touchpoint) : List.Perm (pySort l) l :=
  List.perm_insertionSort tpLE l

theorem filter_orderedInsert_key_eq (k : String) (a : Touchpoint) (h : sortKey a = k) :
    ∀ l : List Touchpoint,
      (List.orderedInsert tpLE a l).filter (fun t => decide (sortKey t = k)) =
        a :: l.filter (fun t => decide (sortKey t = k)) := by
  intro l
  induction l with
  | nil => simp [List.orderedInsert, h]
  | cons b bs ih =>
    by_cases hr : tpLE a b
    · simp [List.orderedInsert, hr, h]
    · have hlt : (sortKey b).data < (sortKey a).data := not_le.mp hr
      have hne : ¬ sortKey b = k := by
        intro hbk
        rw [h] at hlt
        rw [hbk] at hlt
        exact lt_irrefl _ hlt
      simp [List.orderedInsert, hr, hne, ih]

theorem filter_orderedInsert_key_ne (k : String) (a : Touchpoint) (h : ¬ sortKey a = k) :
    ∀ l : List Touchpoint,
      (List.orderedInsert tpLE a l).filter (fun t => decide (sortKey t = k)) =
        l.filter (fun t => decide (sortKey t = k)) := by
  intro l
  induction l with
  | nil => simp [List.orderedInsert, h]
  | cons b bs ih =>
    by_cases hr : tpLE a b
    · simp [List.orderedInsert, hr, h]
    · simp [List.orderedInsert, hr, List.filter_cons, ih]

/-- Stability of the sort at line 612: for each key value, the touchpoints
carrying that key appear in the output in their input order. -/
theorem pySort_stable (l : List Touchpoint) (k : String) :
    (pySort l).filter (fun t => decide (sortKey t = k)) =
      l.filter (fun t => decide (sortKey t = k)) := by
  induction l with
  | nil => rfl
  | cons a as ih =>
    show (List.orderedInsert tpLE a (pySort as)).filter _ = _
    by_cases h : sortKey a = k
    · rw [filter_orderedInsert_key_eq k a h, ih]
      simp [h]
    · rw [filter_orderedInsert_key_ne k a h, ih]
      simp [h]

/-- Under the sole assumption that every present, non-empty date string is
lexicographically below the sentinel "9999" (true of every ISO-8601
timestamp), the sorted sequence puts all unknown-date touchpoints strictly
after all dated ones. -/
theorem pySort_missing_last (l : List Touchpoint)
    (hd : ∀ t ∈ l, hasDate t = true → (sortKey t).data < ("9999" : String).data) :
    (pySort l).Pairwise (fun a b => hasDate b = true → hasDate a = true) := by
  refine (pySort_sorted l).imp_of_mem ?_
  intro a b _ hb hab hdb
  by_contra hda
  have hka : sortKey a = "9999" := by
    unfold hasDate at hda
    unfold sortKey
    match hA : a.date with
    | none => rfl
    | some d =>
      rw [hA] at hda
      simp only [bne_iff_ne, ne_eq, not_not] at hda
      simp [hda]
  have hlt := hd b ((pySort_perm l).subset hb) hdb
  unfold tpLE at hab
  rw [hka] at hab
  exact absurd hab (not_le.mpr hlt)

theorem dedupFrom_sublist :
    ∀ (seen : List (String × String × String)) (l m : List Touchpoint),
      dedupFrom seen l = some m → List.Sublist m l := by
  intro seen l
  induction l generalizing seen with
  | nil =>
    intro m h
    simp only [dedupFrom, Option.some.injEq] at h
    rw [← h]
  | cons t ts ih =>
    intro m h
    match hD : t.date with
    | none => simp [dedupFrom, hD] at h
    | some d =>
      simp only [dedupFrom, hD] at h
      by_cases hk : dedupKey t d ∈ seen
      · rw [if_pos hk] at h
        exact (ih seen m h).cons t
      · rw [if_neg hk] at h
        match hR : dedupFrom (dedupKey t d :: seen) ts with
        | none => rw [hR] at h; exact absurd h (by simp)
        | some m' =>
          rw [hR] at h
          simp only [Option.map_some', Option.some.injEq] at h
          rw [← h]
          exact (ih _ m' hR).cons₂ t

/-- Invariant of the dedup pass: on success, every kept touchpoint has a
present date, its key is outside the initial seen set, and kept keys are
pairwise distinct. -/
theorem dedupFrom_spec :
    ∀ (seen : List (String × String × String)) (l m : List Touchpoint),
      dedupFrom seen l = some m →
        (∀ t ∈ m, ∀ d, t.date = some d → dedupKey t d ∉ seen) ∧
        (∀ t ∈ m, t.date ≠ none) ∧
        m.Pairwise (fun a b => keyOf a ≠ keyOf b) := by
  intro seen l
  induction l generalizing seen with
  | nil =>
    intro m h
    simp only [dedupFrom, Option.some.injEq] at h
    rw [← h]
    exact ⟨by simp, by simp, List.Pairwise.nil⟩
  | cons t ts ih =>
    intro m h
    match hD : t.date with
    | none => simp [dedupFrom, hD] at h
    | some d =>
      simp only [dedupFrom, hD] at h
      by_cases hk : dedupKey t d ∈ seen
      · rw [if_pos hk] at h
        exact ih seen m h
      · rw [if_neg hk] at h
        match hR : dedupFrom (dedupKey t d :: seen) ts with
        | none => rw [hR] at h; exact absurd h (by simp)
        | some m' =>
          rw [hR] at h
          simp only [Option.map_some', Option.some.injEq] at h
          obtain ⟨h1, h2, h3⟩ := ih _ m' hR
          rw [← h]
          refine ⟨?_, ?_, ?_⟩
          · intro u hu du hdu
            rcases List.mem_cons.mp hu with rfl | hu'
            · rw [hD] at hdu
              cases hdu
              exact hk
            · have := h1 u hu' du hdu
              intro hc
              exact this (List.mem_cons_of_mem _ hc)
          · intro u hu
            rcases List.mem_cons.mp hu with rfl | hu'
            · rw [hD]; simp
            · exact h2 u hu'
          · refine List.Pairwise.cons ?_ h3
            intro u hu
            obtain ⟨du, hdu⟩ : ∃ du, u.date = some du := by
              have := h2 u hu
              match hU : u.date with
              | none => exact absurd hU this
              | some du => exact ⟨du, rfl⟩
            have hne : dedupKey u du ≠ dedupKey t d := by
              intro hc
              exact h1 u hu du hdu (by rw [hc]; exact List.mem_cons_self _ _)
            unfold keyOf
            rw [hD, hdu]
            simp only [Option.map_some', ne_eq, Option.some.injEq]
            intro hc
            exact hne hc.symm

/-- A list of touchpoints whose keys are present, pairwise distinct and
outside the seen set passes the dedup loop unchanged. -/
theorem dedupFrom_of_unseen_distinct :
    ∀ (seen : List (String × String × String)) (l : List Touchpoint),
      (∀ t ∈ l, ∀ d, t.date = some d → dedupKey t d ∉ seen) →
      (∀ t ∈ l, t.date ≠ none) →
      l.Pairwise (fun a b => keyOf a ≠ keyOf b) →
      dedupFrom seen l = some l := by
  intro seen l
  induction l generalizing seen with
  | nil => intro _ _ _; rfl
  | cons t ts ih =>
    intro h1 h2 h3
    obtain ⟨d, hD⟩ : ∃ d, t.date = some d := by
      have := h2 t (List.mem_cons_self _ _)
      match hT : t.date with
      | none => exact absurd hT this
      | some d => exact ⟨d, rfl⟩
    simp only [dedupFrom, hD]
    rw [if_neg (h1 t (List.mem_cons_self _ _) d hD)]
    have hts : dedupFrom (dedupKey t d :: seen) ts = some ts := by
      refine ih _ ?_ (fun u hu => h2 u (List.mem_cons_of_mem _ hu)) (List.Pairwise.of_cons h3)
      intro u hu du hdu hc
      rcases List.mem_cons.mp hc with hc' | hc'
      · have := List.rel_of_pairwise_cons h3 hu
        unfold keyOf at this
        rw [hD, hdu] at this
        simp only [Option.map_some', ne_eq, Option.some.injEq] at this
        exact this hc'.symm
      · exact h1 u (List.mem_cons_of_mem _ hu) du hdu hc'
    rw [hts]
    rfl

/-- First-occurrence characterisation of the dedup pass: for every key, the
kept touchpoints with that key are the first input occurrence of it. -/
theorem dedupFrom_filter :
    ∀ (seen : List (String × String × String)) (l m : List Touchpoint),
      dedupFrom seen l = some m →
      ∀ k : String × String × String,
        m.filter (fun t => decide (keyOf t = some k)) =
          if k ∈ seen then []
          else (l.filter (fun t => decide (keyOf t = some k))).take 1 := by
  intro seen l
  induction l generalizing seen with
  | nil =>
    intro m h k
    simp only [dedupFrom, Option.some.injEq] at h
    rw [← h]
    simp
  | cons t ts ih =>
    intro m h k
    match hD : t.date with
    | none => simp [dedupFrom, hD] at h
    | some d =>
      have hKt : keyOf t = some (dedupKey t d) := by unfold keyOf; rw [hD]; rfl
      simp only [dedupFrom, hD] at h
      by_cases hk : dedupKey t d ∈ seen
      · rw [if_pos hk] at h
        have := ih seen m h k
        by_cases hks : k ∈ seen
        · rw [this, if_pos hks, if_pos hks]
        · have hne : ¬ keyOf t = some k := by
            rw [hKt]
            intro hc
            cases hc
            exact hks hk
          rw [this, if_neg hks, if_neg hks, List.filter_cons_of_neg (by simp [hne])]
      · rw [if_neg hk] at h
        match hR : dedupFrom (dedupKey t d :: seen) ts with
        | none => rw [hR] at h; exact absurd h (by simp)
        | some m' =>
          rw [hR] at h
          simp only [Option.map_some', Option.some.injEq] at h
          rw [← h]
          by_cases hkk : k = dedupKey t d
          · have hks : k ∉ seen := by rw [hkk]; exact hk
            have hpt : keyOf t = some k := by rw [hKt, hkk]
            rw [List.filter_cons_of_pos (by simp [hpt]),
              List.filter_cons_of_pos (by simp [hpt])]
            have := ih _ m' hR k
            rw [if_pos (by rw [hkk]; exact List.mem_cons_self _ _)] at this
            rw [this, if_neg hks]
            rfl
          · have hne : ¬ keyOf t = some k := by
              rw [hKt]
              intro hc
              cases hc
              exact hkk rfl
            rw [List.filter_cons_of_neg (by simp [hne]),
              List.filter_cons_of_neg (by simp [hne])]
            have := ih _ m' hR k
            rw [this]
            by_cases hks : k ∈ seen
            · rw [if_pos (List.mem_cons_of_mem _ hks), if_pos hks]
            · rw [if_neg ?_, if_neg hks]
              intro hc
              rcases List.mem_cons.mp hc with hc' | hc'
              · exact hkk hc'
              · exact hks hc'

/-- C1: for every customer, the sequence produced by the sort/dedup step
(lines 611-621) is sorted by timestamp ascending with unknown-timestamp
touchpoints strictly after all dated ones, and the sort is stable: for each
key the touchpoints carrying it keep their input order, so the output is a
function of the input alone. The sole hypothesis is that every dated
touchpoint's date string compares below the sentinel "9999", true of every
ISO-8601 timestamp the sources emit. -/
theorem sort_dedup_sorted_stable (l : List Touchpoint)
    (hd : ∀ t ∈ l, hasDate t = true → (sortKey t).data < ("9999" : String).data)
    (m : List Touchpoint) (hm : dedup (pySort l) = some m) :
    (pySort l).Pairwise tpLE ∧
    (∀ k, (pySort l).filter (fun t => decide (sortKey t = k)) =
      l.filter (fun t => decide (sortKey t = k))) ∧
    (pySort l).Pairwise (fun a b => hasDate b = true → hasDate a = true) ∧
    m.Pairwise tpLE ∧
    m.Pairwise (fun a b => hasDate b = true → hasDate a = true) := by
  have hsub := dedupFrom_sublist [] (pySort l) m hm
  exact ⟨pySort_sorted l, fun k => pySort_stable l k, pySort_missing_last l hd,
    (pySort_sorted l).sublist hsub, (pySort_missing_last l hd).sublist hsub⟩

/-- Witness for C1 at a concrete three-touchpoint input, one with an empty
(falsy) date: the output is sorted, the empty-date touchpoint comes last, and
the per-key filter is unchanged. -/
theorem sort_dedup_sorted_stable_witness :
    dedup (pySort [tpEmail0, tpBlankDate, tpCall]) = some [tpCall, tpEmail0, tpBlankDate] ∧
    (pySort [tpEmail0, tpBlankDate, tpCall]).Pairwise tpLE ∧
    (pySort [tpEmail0, tpBlankDate, tpCall]).Pairwise
      (fun a b => hasDate b = true → hasDate a = true) ∧
    (pySort [tpEmail0, tpBlankDate, tpCall]).filter
        (fun t => decide (sortKey t = "2024-03-01T10:00:00Z")) =
      [tpEmail0, tpBlankDate, tpCall].filter
        (fun t => decide (sortKey t = "2024-03-01T10:00:00Z")) := by
  have h := sort_dedup_sorted_stable [tpEmail0, tpBlankDate, tpCall] (by decide)
    [tpCall, tpEmail0, tpBlankDate] (by decide)
  exact ⟨by decide, h.1, h.2.2.1, h.2.1 "2024-03-01T10:00:00Z"⟩

/-- C2: the dedup pass of lines 614-621 is idempotent: applied to a sequence
that is itself an output of the dedup pass, it returns that sequence
unchanged. -/
theorem dedup_idempotent (l m : List Touchpoint) (h : dedup l = some m) :
    dedup m = some m := by
  obtain ⟨_, h2, h3⟩ := dedupFrom_spec [] l m h
  exact dedupFrom_of_unseen_distinct [] m (fun t _ d _ => List.not_mem_nil _) h2 h3

/-- Witness for C2: deduplicating a three-element list with one duplicate,
then deduplicating the result again, leaves it unchanged. -/
theorem dedup_idempotent_witness :
    dedup [tpEmail0, tpEmail30, tpCall] = some [tpEmail0, tpCall] ∧
    dedup [tpEmail0, tpCall] = some [tpEmail0, tpCall] :=
  ⟨by decide, dedup_idempotent [tpEmail0, tpEmail30, tpCall] [tpEmail0, tpCall] (by decide)⟩

/-- C3: the dedup pass keeps a touchpoint iff it is the first occurrence of
its key (date truncated to 16 characters, i.e. minute granularity for
ISO-8601 dates; type; detail truncated to its 50-character prefix): the kept
sequence is a sublist of the input and, for every key, the kept touchpoints
with that key are exactly the first input occurrence of it. -/
theorem dedup_keeps_first_occurrence (s m : List Touchpoint) (h : dedup s = some m) :
    List.Sublist m s ∧
    ∀ k, m.filter (fun t => decide (keyOf t = some k)) =
      (s.filter (fun t => decide (keyOf t = some k))).take 1 := by
  refine ⟨dedupFrom_sublist [] s m h, fun k => ?_⟩
  have hf := dedupFrom_filter [] s m h k
  simpa using hf

/-- Witness for C3, the minute-collision example of the claim: touchpoints at
10:00:00Z and 10:00:30Z with the same type and detail collapse to the first
one. -/
theorem dedup_keeps_first_occurrence_witness :
    dedup [tpEmail0, tpEmail30] = some [tpEmail0] ∧
    List.Sublist [tpEmail0] [tpEmail0, tpEmail30] ∧
    [tpEmail0].filter (fun t =>
        decide (keyOf t = some ("2024-03-01T10:00", "Email", "[INCOMING] Quick question"))) =
      ([tpEmail0, tpEmail30].filter (fun t =>
        decide (keyOf t = some ("2024-03-01T10:00", "Email", "[INCOMING] Quick question")))).take 1 := by
  have h := dedup_keeps_first_occurrence [tpEmail0, tpEmail30] [tpEmail0] (by decide)
  exact ⟨by decide, h.1, h.2 ("2024-03-01T10:00", "Email", "[INCOMING] Quick question")⟩

set_option maxRecDepth 4000 in
/-- C4 counterexample: a First Touch touchpoint built by lines 311-333
reaches the serialized output (it survives sort and dedup unchanged) with a
detail of 195 characters, far beyond the 120-character default cap of
truncate and the 150-character cap used for note bodies: output details are
not capped. -/
theorem detail_cap_counterexample :
    dedup (pySort [tpLongFirstTouch]) = some [tpLongFirstTouch] ∧
    150 < tpLongFirstTouch.detail.length ∧
    ¬ tpLongFirstTouch.detail.length ≤ 120 :=
  ⟨by decide, by decide, by decide⟩

/-- C4 (amended): only details passed through truncate (lines 255-261) are
capped: such a detail has length at most max_len + 3, and whenever the
cleaned text exceeds max_len the result is its max_len-character prefix with
the "..." marker appended. -/
theorem truncate_bounded_with_ellipsis (s : String) (n : Nat) :
    (truncate s n).length ≤ n + 3 ∧
    ((pyClean s).length > n → truncate s n = strTake (pyClean s) n ++ "...") := by
  by_cases h0 : s = ""
  · subst h0
    refine ⟨by simp [truncate], fun hgt => ?_⟩
    have hz : (pyClean "").length = 0 := rfl
    omega
  · by_cases hlen : (pyClean s).length > n
    · have ht : truncate s n = strTake (pyClean s) n ++ "..." := by
        simp only [truncate, if_neg h0, if_pos hlen]
      have h1 : (strTake (pyClean s) n).length = n := by
        show ((pyClean s).data.take n).length = n
        have hh : n < (pyClean s).data.length := hlen
        rw [List.length_take]
        omega
      refine ⟨?_, fun _ => ht⟩
      rw [ht, String.length_append, h1]
      have h3 : ("..." : String).length = 3 := rfl
      omega
    · have ht : truncate s n = pyClean s := by
        simp only [truncate, if_neg h0, if_neg hlen]
      refine ⟨?_, fun hgt => absurd hgt hlen⟩
      rw [ht]
      omega

/-- Witness for C4 (amended) at a concrete over-long note body and cap 20. -/
theorem truncate_bounded_with_ellipsis_witness :
    (truncate "Note body that runs well past the cap we chose here" 20).length ≤ 23 ∧
    truncate "Note body that runs well past the cap we chose here" 20 =
      strTake (pyClean "Note body that runs well past the cap we chose here") 20 ++ "..." := by
  have h := truncate_bounded_with_ellipsis "Note body that runs well past the cap we chose here" 20
  exact ⟨h.1, h.2 (by decide)⟩

/-- C5: the four outcome cohorts of lines 648-651 are mutually exclusive: a
record in one of the four filtered lists is in none of the other three; in
particular a customer matching none of Closed-Won, Churned or Stalled can
appear in no cohort but (at most) the No-Deal bucket. -/
theorem cohorts_mutually_exclusive (cs : List CompanyData) (c : CompanyData) :
    (c ∈ closed_won cs → c ∉ churned cs ∧ c ∉ stalled cs ∧ c ∉ no_deal cs) ∧
    (c ∈ churned cs → c ∉ closed_won cs ∧ c ∉ stalled cs ∧ c ∉ no_deal cs) ∧
    (c ∈ stalled cs → c ∉ closed_won cs ∧ c ∉ churned cs ∧ c ∉ no_deal cs) ∧
    (c ∈ no_deal cs → c ∉ closed_won cs ∧ c ∉ churned cs ∧ c ∉ stalled cs) := by
  simp only [closed_won, churned, stalled, no_deal, List.mem_filter, decide_eq_true_eq]
  refine ⟨fun h => ?_, fun h => ?_, fun h => ?_, fun h => ?_⟩
  · obtain ⟨-, hs⟩ := h
    refine ⟨?_, ?_, ?_⟩ <;> rintro ⟨-, hs2⟩ <;> rw [hs] at hs2 <;> simp at hs2
  · obtain ⟨-, hs⟩ := h
    refine ⟨?_, ?_, ?_⟩ <;> rintro ⟨-, hs2⟩ <;> rcases hs with hs | hs <;>
      rw [hs] at hs2 <;> simp at hs2
  · obtain ⟨-, hs⟩ := h
    refine ⟨?_, ?_, ?_⟩ <;> rintro ⟨-, hs2⟩ <;>
      rcases hs with hs | hs | hs | hs | hs | hs | hs <;>
      rw [hs] at hs2 <;> simp at hs2
  · obtain ⟨-, hs⟩ := h
    refine ⟨?_, ?_, ?_⟩ <;> rintro ⟨-, hs2⟩ <;> rcases hs with hs | hs | hs <;>
      rw [hs] at hs2 <;> simp at hs2

/-- Witness for C5: a concrete Closed Won record is in the closed_won cohort
and in none of the other three. -/
theorem cohorts_mutually_exclusive_witness :
    cdWon ∈ closed_won [cdWon] ∧
    cdWon ∉ churned [cdWon] ∧ cdWon ∉ stalled [cdWon] ∧ cdWon ∉ no_deal [cdWon] := by
  have h := (cohorts_mutually_exclusive [cdWon] cdWon).1 (by decide)
  exact ⟨by decide, h⟩

/-- C7 counterexample: the server answers 429 twice and then succeeds; the
code (which re-issues the call on every 429, line 74) returns the payload,
while the claimed retry-exactly-once policy would have abandoned the call
after the second 429 and treated its data as absent. -/
theorem rate_limit_retry_counterexample :
    hubspot_get [HttpResp.httpError 429, HttpResp.httpError 429, HttpResp.ok (7 : Nat)] =
      some 7 ∧
    hubspot_get_retry_once
        [HttpResp.httpError 429, HttpResp.httpError 429, HttpResp.ok (7 : Nat)] =
      (none : Option Nat) ∧
    (some 7 : Option Nat) ≠ (none : Option Nat) :=
  ⟨by decide, by decide, by decide⟩

/-- C7 (amended): a rate-limited call is retried after the fixed delay as
often as the server keeps answering 429, until a non-429 response; a non-429
HTTP error, or any other exception, makes the call's data absent and
processing continues. -/
theorem rate_limit_retry_until_non429 {α : Type} (n : Nat) (p : α) (c : Nat) (hc : c ≠ 429) :
    hubspot_get (List.replicate n (HttpResp.httpError 429) ++ [HttpResp.ok p]) = some p ∧
    hubspot_get (List.replicate n (HttpResp.httpError 429) ++ [HttpResp.httpError c]) =
      (none : Option α) ∧
    hubspot_get (List.replicate n (HttpResp.httpError 429) ++ [HttpResp.exc]) =
      (none : Option α) := by
  induction n with
  | zero => simp [hubspot_get, if_neg hc]
  | succ k ih =>
    simpa [List.replicate_succ, hubspot_get] using ih

/-- Witness for C7 (amended) at two 429s followed by each terminal response,
with the non-429 code 500. -/
theorem rate_limit_retry_until_non429_witness :
    (500 : Nat) ≠ 429 ∧
    hubspot_get (List.replicate 2 (HttpResp.httpError 429) ++ [HttpResp.ok (5 : Nat)]) =
      some 5 ∧
    hubspot_get (List.replicate 2 (HttpResp.httpError 429) ++ [HttpResp.httpError 500]) =
      (none : Option Nat) ∧
    hubspot_get (List.replicate 2 (HttpResp.httpError 429) ++ [HttpResp.exc]) =
      (none : Option Nat) := by
  have h := @rate_limit_retry_until_non429 Nat 2 5 500 (by decide)
  exact ⟨by decide, h.1, h.2.1, h.2.2⟩

theorem gapEmit_pos (db : String → String → Option Int) (c : String) (o : Option String)
    (p : (String × String) × String × String) (g : TouchpointGap)
    (h : gapEmit db c o p = some g) : 0 < g.gap_days := by
  match hdb : db p.1.1 p.2.1 with
  | none => simp [gapEmit, hdb] at h
  | some gd =>
    simp only [gapEmit, hdb] at h
    by_cases hg : gd > 0
    · rw [if_pos hg] at h
      simp only [Option.some.injEq] at h
      rw [← h]
      exact hg
    · rw [if_neg hg] at h
      simp at h

/-- The gap walk emits exactly one candidate per consecutive pair of kept
touchpoints, the pair being seeded with prev when present. -/
theorem gapWalk_eq (db : String → String → Option Int) (c : String) (o : Option String) :
    ∀ (tps : List Touchpoint) (prev : Option (String × String)),
      gapWalk db c o prev tps =
        ((prev.toList ++ keptPairs tps).zip
          (prev.toList ++ keptPairs tps).tail).filterMap (gapEmit db c o) := by
  intro tps
  induction tps with
  | nil => intro prev; cases prev <;> rfl
  | cons tp tps ih =>
    intro prev
    match hk : gapKept tp with
    | none =>
      have hkeep : keptPairs (tp :: tps) = keptPairs tps := by
        simp [keptPairs, List.filterMap_cons, hk]
      simp only [gapWalk, hk, hkeep]
      exact ih prev
    | some pr =>
      obtain ⟨d, ty⟩ := pr
      have hkeep : keptPairs (tp :: tps) = (d, ty) :: keptPairs tps := by
        simp [keptPairs, List.filterMap_cons, hk]
      cases prev with
      | none =>
        simp only [gapWalk, hk, hkeep]
        rw [ih (some (d, ty))]
        rfl
      | some pp =>
        obtain ⟨pd, pt⟩ := pp
        simp only [gapWalk, hk, hkeep, Option.toList, List.cons_append, List.nil_append,
          List.tail_cons, List.zip_cons_cons, List.filterMap_cons]
        rw [ih (some (d, ty))]
        match hdb : db pd d with
        | none => simp [gapEmit, hdb]
        | some gd =>
          by_cases hg : gd > 0
          · simp [gapEmit, hdb, if_pos hg]
          · simp [gapEmit, hdb, if_neg hg]

/-- C6: the gap analyzer (lines 760-775) records one gap per consecutive
pair of kept touchpoints (dated, type not "Last Sales Activity") whose
day-difference is defined and strictly positive; hence every recorded gap
has gap_days > 0 and a single-touchpoint customer contributes no gaps. The
statement holds for every days_between function db. -/
theorem gap_walk_consecutive_positive (db : String → String → Option Int)
    (company : String) (outcome : Option String) (tps : List Touchpoint) :
    gapWalk db company outcome none tps =
      ((keptPairs tps).zip (keptPairs tps).tail).filterMap (gapEmit db company outcome) ∧
    (∀ g ∈ gapWalk db company outcome none tps, 0 < g.gap_days) ∧
    (∀ tp : Touchpoint, gapWalk db company outcome none [tp] = []) := by
  have heq := gapWalk_eq db company outcome tps none
  simp only [Option.toList, List.nil_append] at heq
  refine ⟨heq, ?_, ?_⟩
  · intro g hg
    rw [heq] at hg
    obtain ⟨p, -, hp⟩ := List.mem_filterMap.mp hg
    exact gapEmit_pos db company outcome p g hp
  · intro tp
    match hk : gapKept tp with
    | none => simp [gapWalk, hk]
    | some pr =>
      obtain ⟨d, ty⟩ := pr
      simp [gapWalk, hk]

/-- Witness for C6 at a concrete pair of dated touchpoints sixteen days
apart: one positive gap is recorded, and a single touchpoint records none. -/
theorem gap_walk_consecutive_positive_witness :
    gapWalk wdb "Acme" (some "Closed Won") none [tpCall, tpEmail0] =
      [⟨"Acme", 16, "Call", "Email", some "Closed Won"⟩] ∧
    (0 : Int) < (16 : Int) ∧
    gapWalk wdb "Acme" (some "Closed Won") none [tpCall] = [] := by
  have h := gap_walk_consecutive_positive wdb "Acme" (some "Closed Won") [tpCall, tpEmail0]
  refine ⟨by decide, ?_, h.2.2 tpCall⟩
  exact h.2.1 ⟨"Acme", 16, "Call", "Email", some "Closed Won"⟩ (by decide)

/-- C8: a contact whose email finds no CRM record does not fail the
customer: the loop contributes exactly one synthetic "Platform Signup"
touchpoint sourced from the local signup system for that contact and
continues with the remaining contacts, whatever the rest of the loop body
does for found contacts. -/
theorem missing_contact_single_signup {β : Type} (lookup : String → Option β)
    (norm : β → CognitoContact → List Touchpoint) (c : CognitoContact)
    (cs : List CognitoContact) (h : lookup (emailKey c) = none) :
    processContacts lookup norm (c :: cs) =
      notFoundTouchpoint c :: processContacts lookup norm cs ∧
    (notFoundTouchpoint c).type = "Platform Signup" ∧
    (notFoundTouchpoint c).source = "Cognito" := by
  refine ⟨?_, rfl, rfl⟩
  simp only [processContacts, h]

/-- Witness for C8: a lookup that finds nothing turns the single contact
into exactly its synthetic signup touchpoint, with the email stripped and
lowercased in the detail. -/
theorem missing_contact_single_signup_witness :
    processContacts (fun _ => (none : Option Unit)) (fun _ _ => []) [wContact] =
      [notFoundTouchpoint wContact] ∧
    (notFoundTouchpoint wContact).type = "Platform Signup" ∧
    (notFoundTouchpoint wContact).detail = "a@x.co created Cognito account" := by
  have h := missing_contact_single_signup (fun _ => (none : Option Unit)) (fun _ _ => [])
    wContact [] (by decide)
  exact ⟨by decide, h.2.1, by decide⟩

/-- C9 counterexample: a deal name that itself contains "moved to:" makes
the code's extraction (split at the next occurrence of "moved to:") differ
from the claimed text between "moved to:" and the first "(": the code
yields the quote-terminated fragment, the claim the longer text. -/
theorem extract_stage_counterexample :
    extractStage "\"A moved to: B\" moved to: C (via UI)" = some "B\"" ∧
    extractStageClaim "\"A moved to: B\" moved to: C (via UI)" = some "B\" moved to: C" ∧
    some ("B\"" : String) ≠ some ("B\" moved to: C" : String) :=
  ⟨by decide, by decide, by decide⟩

theorem foldl_add_count (k : String) (allTps : List (List Touchpoint)) :
    ∀ a : Nat, allTps.foldl (fun acc tps => acc + (transitionKeys tps).count k) a =
      a + (allTps.map (fun tps => (transitionKeys tps).count k)).sum := by
  induction allTps with
  | nil => intro a; simp
  | cons t ts ih =>
    intro a
    simp only [List.foldl_cons, List.map_cons, List.sum_cons, ih]
    omega

/-- C9 (amended): the stage extracted from a Deal Stage Change detail is the
text after the first "moved to:", truncated at the next occurrence of
"moved to:" when one exists and then at the first "(", stripped; in the
common case of a single occurrence (as in the claim's example, which yields
"Demo Scheduled") this is the text between "moved to:" and the first "("
after it; and each consecutive pair of extracted stages of a customer adds
exactly one entry to the global transition table. -/
theorem extract_stage_amended :
    extractStage "\"Acme Deal\" moved to: Demo Scheduled (via CRM_UI)" = some "Demo Scheduled" ∧
    (∀ (detail : String) (p : List Char × List Char),
      findSplit movedTo detail.data = some p → findSplit movedTo p.2 = none →
      extractStage detail = extractStageClaim detail) ∧
    (∀ (allTps : List (List Touchpoint)) (k : String),
      stage_sequence_counts allTps k =
        (allTps.map (fun tps => (transitionKeys tps).count k)).sum) ∧
    (∀ tps : List Touchpoint, (transitionKeys tps).length = (stagesSeen tps).length - 1) := by
  refine ⟨by decide, ?_, ?_, ?_⟩
  · intro detail p hp hnone
    simp only [extractStage, extractStageClaim, hp]
    have hb : beforeFirst movedTo p.2 = p.2 := by
      simp only [beforeFirst, hnone]
    rw [hb]
  · intro allTps k
    have h := foldl_add_count k allTps 0
    simpa [stage_sequence_counts] using h
  · intro tps
    simp only [transitionKeys, List.length_map, List.length_zip, List.length_tail]
    omega

/-- Witness for C9 (amended): the claim's example detail satisfies the
single-occurrence condition, so the code and the claimed reading agree on
it, and two consecutive stage changes add one transition-table entry. -/
theorem extract_stage_amended_witness :
    extractStage "\"Acme Deal\" moved to: Demo Scheduled (via CRM_UI)" =
      extractStageClaim "\"Acme Deal\" moved to: Demo Scheduled (via CRM_UI)" ∧
    transitionKeys [tpStage, tpStage2] = ["Demo Scheduled → Closed Won"] ∧
    stage_sequence_counts [[tpStage, tpStage2]] "Demo Scheduled → Closed Won" = 1 := by
  have h := extract_stage_amended
  exact ⟨h.2.1 "\"Acme Deal\" moved to: Demo Scheduled (via CRM_UI)"
      ("\"Acme Deal\" ".data, " Demo Scheduled (via CRM_UI)".data) (by decide) (by decide),
    by decide, by decide⟩

/-- C10: in every serialized per-customer record (lines 623-635), the
total_touchpoints field equals the length of the record's deduplicated
touchpoints sequence. -/
theorem total_touchpoints_eq_length (j : Journey) (raw : List Touchpoint)
    (m : List Touchpoint) (h : dedup (pySort raw) = some m) :
    (mkCompanyData j m).total_touchpoints = (mkCompanyData j m).touchpoints.length :=
  rfl

/-- Witness for C10 at a concrete journey whose two raw touchpoints dedup to
one. -/
theorem total_touchpoints_eq_length_witness :
    dedup (pySort [tpEmail0, tpEmail30]) = some [tpEmail0] ∧
    (mkCompanyData wJourney [tpEmail0]).total_touchpoints =
      (mkCompanyData wJourney [tpEmail0]).touchpoints.length :=
  ⟨by decide, total_touchpoints_eq_length wJourney [tpEmail0, tpEmail30] [tpEmail0] (by decide)⟩

end FetchTouchpoints
